import Mathlib

/-!
Shallow embedding of the session store implemented in src/lib/MongoStore.ts.

JavaScript dynamic values are modelled by the inductive type JVal; a method
named toJSON on a cookie object is modelled by a field "toJSON" holding the
result of calling it.  Timestamps are integers counting milliseconds since the
epoch; a JS Date carries its timestamp.  External collaborators (the MongoDB
driver, the JSON builtins, the kruptein cipher) are parameters of the
operations; the backing collection is a list of records and an updateOne call
is modelled by the corresponding list transformation.  Each store operation
returns the list of callback invocations it performs and the list of events it
emits, in order, together with the resulting collection contents.
-/

namespace ConnectMongo

mutual
/-- A JavaScript value: primitives, Date objects and plain objects. -/
inductive JVal where
  | null : JVal
  | bool (b : Bool) : JVal
  | num (n : Int) : JVal
  | str (s : String) : JVal
  | date (t : Int) : JVal
  | obj (fields : JFields) : JVal
deriving DecidableEq, Repr

/-- The property list of a JavaScript object, in insertion order. -/
inductive JFields where
  | nil : JFields
  | cons (k : String) (v : JVal) (rest : JFields) : JFields
deriving DecidableEq, Repr
end

/-- Property read on a property list. -/
def lookupField (k : String) : JFields → Option JVal
  | .nil => none
  | .cons k2 v rest => if k2 = k then some v else lookupField k rest

/-- The JS delete operator on a property list. -/
def removeField (k : String) : JFields → JFields
  | .nil => .nil
  | .cons k2 v rest =>
      if k2 = k then removeField k rest else .cons k2 v (removeField k rest)

/-- Property assignment on a property list: overwrite in place or append. -/
def setObjField (k : String) (x : JVal) : JFields → JFields
  | .nil => .cons k x .nil
  | .cons k2 v rest =>
      if k2 = k then .cons k2 x rest else .cons k2 v (setObjField k x rest)

/-- Property read `v[k]` ; a missing property or a non-object base reads as
absent (JS undefined). -/
def getField (v : JVal) (k : String) : Option JVal :=
  match v with
  | .obj fs => lookupField k fs
  | _ => none

/-- The JS statement `delete v[k]` ; a no-op on non-objects. -/
def deleteField (v : JVal) (k : String) : JVal :=
  match v with
  | .obj fs => .obj (removeField k fs)
  | other => other

/-- The JS assignment `v[k] = x` : a TypeError on null, a silent no-op on
other primitives (non-strict mode), an update on objects. -/
def setField (v : JVal) (k : String) (x : JVal) : Except String JVal :=
  match v with
  | .null => .error "TypeError: Cannot set properties of null"
  | .obj fs => .ok (.obj (setObjField k x fs))
  | other => .ok other

/-- JS truthiness of a value. -/
def truthy : JVal → Bool
  | .null => false
  | .bool b => b
  | .num n => decide (n ≠ 0)
  | .str s => decide (s ≠ "")
  | .date _ => true
  | .obj _ => true

/-- JS truthiness of a possibly-absent value (undefined is falsy). -/
def truthyOpt : Option JVal → Bool
  | none => false
  | some v => truthy v

/-- The timestamp of `new Date(v)` for the inputs the store feeds it: a Date
or a millisecond number keeps its instant; other inputs are not modelled and
map to 0. -/
def jvalToDate (v : JVal) : Int :=
  match v with
  | .date t => t
  | .num n => n
  | _ => 0

/-- The identity transform, called unit in the source. -/
def unit (a : JVal) : JVal := a

/-- `session.cookie.toJSON ? session.cookie.toJSON() : session.cookie` :
convert the cookie instance to its plain form when it has a toJSON method. -/
def cookieToPlain (c : JVal) : JVal :=
  match c with
  | .obj fs =>
      match lookupField "toJSON" fs with
      | some r => r
      | none => c
  | other => other

/-- The property-copying loop of defaultSerializeFunction. -/
def serializeFields : JFields → JFields
  | .nil => .nil
  | .cons k v rest =>
      .cons k (if k = "cookie" then cookieToPlain v else v) (serializeFields rest)

/-- defaultSerializeFunction: copy each property of the session to a new
object, normalizing the cookie property via its toJSON method when present. -/
def defaultSerializeFunction (s : JVal) : JVal :=
  match s with
  | .obj fs => .obj (serializeFields fs)
  | _ => .obj .nil

/-- The serialize/unserialize related construction options. -/
structure TransformOptions where
  serialize : Option (JVal → JVal)
  unserialize : Option (JVal → JVal)
  stringify : Bool

/-- computeTransformFunctions from the source; the JSON builtins
(JSON.stringify / JSON.parse) are external and passed as parameters. -/
def computeTransformFunctions (o : TransformOptions)
    (jsonStringify jsonParse : JVal → JVal) : (JVal → JVal) × (JVal → JVal) :=
  if o.serialize.isSome || o.unserialize.isSome then
    (o.serialize.getD defaultSerializeFunction, o.unserialize.getD unit)
  else if o.stringify = false then
    (defaultSerializeFunction, unit)
  else
    (jsonStringify, jsonParse)

/-- The construction options the engine consults at operation time:
ttl and touchAfter in seconds, and whether a crypto secret was configured.
The defaults are those of the constructor. -/
structure StoreOptions where
  ttl : Int := 1209600
  touchAfter : Int := 0
  cryptoActive : Bool := false
deriving DecidableEq, Repr

/-- External collaborators: JSON builtins and the kruptein cipher calls
(crypto.get decrypts, crypto.set encrypts; both are fallible). -/
structure Externals where
  jsonStringify : JVal → JVal
  jsonParse : JVal → JVal
  cryptoGet : JVal → Except String JVal
  cryptoSet : JVal → Except String JVal

/-- A stored document: `{ _id, session, expires?, lastModified? }` with the
two dates carried as millisecond timestamps. -/
structure DBRecord where
  _id : String
  session : JVal
  expires : Option Int
  lastModified : Option Int
deriving DecidableEq, Repr

/-- The lifecycle notifications the store emits. -/
inductive Event where
  | create | update | set | get | touch | all | destroy
deriving DecidableEq, Repr

/-- One invocation of the get callback. -/
inductive GetCallback where
  | failure (err : String)
  | success (s : JVal)
deriving DecidableEq, Repr

/-- One invocation of the set/touch callback. -/
inductive WriteCallback where
  | failure (err : String)
  | success
deriving DecidableEq, Repr

/-- computeStorageId: apply the configured transformId when present,
identity otherwise. -/
def computeStorageId (transformId : Option (String → String))
    (sid : String) : String :=
  match transformId with
  | some f => f sid
  | none => sid

/-- The expiry part of the read queries:
`$or: [ \x7b expires: \x7b $exists: false \x7d \x7d, \x7b expires: \x7b $gt: new Date() \x7d \x7d ]`. -/
def queryNotExpired (now : Int) (e : Option Int) : Bool :=
  match e with
  | none => true
  | some t => decide (now < t)

/-- The findOne call issued by get: match on storage id and the expiry
filter. -/
def findSession (transformId : Option (String → String)) (now : Int)
    (db : List DBRecord) (sid : String) : Option DBRecord :=
  db.find? (fun r =>
    r._id == computeStorageId transformId sid && queryNotExpired now r.expires)

/-- The find call issued by all: every record passing the expiry filter. -/
def allSessions (now : Int) (db : List DBRecord) : List DBRecord :=
  db.filter (fun r => queryNotExpired now r.expires)

/-- Outcome of a get call: callback invocations in order, events in order. -/
structure GetOutcome where
  completions : List GetCallback
  events : List Event
deriving DecidableEq, Repr

/-- The document `s` that set builds and hands to updateOne as `$set`. -/
structure SetDoc where
  _id : String
  session : JVal
  expires : Option Int := none
  lastModified : Option Int := none
deriving DecidableEq, Repr

/-- Outcome of a set call.  `written` is the final `$set` document;
`callerSession` is the caller-owned payload object after the call (set may
mutate it in place). -/
structure SetOutcome where
  db2 : List DBRecord
  completions : List WriteCallback
  events : List Event
  written : SetDoc
  callerSession : JVal
deriving DecidableEq, Repr

/-- The updateFields document touch builds; a `none` field is omitted from
the `$set`. -/
structure UpdateFields where
  lastModified : Option Int := none
  expires : Option Int := none
  session : Option JVal := none
deriving DecidableEq, Repr

/-- Outcome of a touch call.  `updateFields` is the `$set` document sent to
the collection, or `none` when the call skipped the write. -/
structure TouchOutcome where
  db2 : List DBRecord
  completions : List WriteCallback
  events : List Event
  updateFields : Option UpdateFields
deriving DecidableEq, Repr

/-- Outcome of an all call. -/
structure AllOutcome where
  results : List JVal
  events : List Event
deriving DecidableEq, Repr

/-- Reading `session.cookie.expires` with optional chaining. -/
def cookieExpiresField (sess : JVal) : Option JVal :=
  match getField sess "cookie" with
  | some c => getField c "expires"
  | none => none

/-- Applying a `$set` with a full set document to a matched record: only the
fields present in the document are replaced. -/
def applySetDoc (r : DBRecord) (s : SetDoc) : DBRecord :=
  { _id := r._id,
    session := s.session,
    expires := match s.expires with | some e => some e | none => r.expires,
    lastModified :=
      match s.lastModified with | some t => some t | none => r.lastModified }

/-- Applying a `$set` with a touch updateFields document to a matched
record. -/
def touchApply (r : DBRecord) (u : UpdateFields) : DBRecord :=
  { _id := r._id,
    session := match u.session with | some s => s | none => r.session,
    expires := match u.expires with | some e => some e | none => r.expires,
    lastModified :=
      match u.lastModified with | some t => some t | none => r.lastModified }

namespace MongoStore

/-- MongoStore.get, source lines 217 to 260.  When decryption fails the
source invokes the callback with the error and then falls through to the
rest of the body; when the record is absent and touchAfter is positive the
read of `session.lastModified` on null throws and the outer handler invokes
the callback with that error. -/
def get (opts : StoreOptions) (ext : Externals) (unserialize : JVal → JVal)
    (transformId : Option (String → String)) (now : Int)
    (db : List DBRecord) (sid : String) : GetOutcome :=
  match findSession transformId now db sid with
  | none =>
      if decide (0 < opts.touchAfter) then
        { completions := [.failure "TypeError: Cannot read properties of null"],
          events := [] }
      else
        { completions := [.success .null], events := [Event.get] }
  | some rec =>
      let cryptoStep : List GetCallback × JVal :=
        if opts.cryptoActive then
          match ext.cryptoGet (ext.jsonStringify (unserialize rec.session)) with
          | .ok plaintext => ([], plaintext)
          | .error e => ([.failure e], rec.session)
        else ([], rec.session)
      let s := unserialize cryptoStep.2
      if decide (0 < opts.touchAfter) && rec.lastModified.isSome then
        match setField s "lastModified" (.date (rec.lastModified.getD 0)) with
        | .ok s2 =>
            { completions := cryptoStep.1 ++ [.success s2],
              events := [Event.get] }
        | .error e =>
            { completions := cryptoStep.1 ++ [.failure e], events := [] }
      else
        { completions := cryptoStep.1 ++ [.success s], events := [Event.get] }

/-- The lastModified-stripping step at the top of set: delete the prop from
the caller payload when touchAfter is positive and the prop is truthy. -/
def stripLastModified (opts : StoreOptions) (sess : JVal) : JVal :=
  if decide (0 < opts.touchAfter) && truthyOpt (getField sess "lastModified")
  then deleteField sess "lastModified"
  else sess

/-- The expire handling of set: an explicit truthy cookie expiry is stored
as that absolute instant, otherwise now plus ttl seconds. -/
def setDocExpires (opts : StoreOptions) (now : Int) (sess : JVal) : Option Int :=
  if truthyOpt (cookieExpiresField sess) then
    some (jvalToDate ((cookieExpiresField sess).getD .null))
  else
    some (now + opts.ttl * 1000)

/-- MongoStore.set, source lines 267 to 336.  When encryption fails the
source invokes the callback with the error and then falls through to the
updateOne.  The upsert inserts when no record matches the storage id, else
replaces the fields of the matching record. -/
def set (opts : StoreOptions) (ext : Externals) (serialize : JVal → JVal)
    (transformId : Option (String → String)) (now : Int)
    (db : List DBRecord) (sid : String) (sess : JVal) : SetOutcome :=
  let sess1 := stripLastModified opts sess
  let sDoc : SetDoc :=
    { _id := computeStorageId transformId sid,
      session := serialize sess1,
      expires := setDocExpires opts now sess1,
      lastModified := if decide (0 < opts.touchAfter) then some now else none }
  let cryptoStep : List WriteCallback × JVal :=
    if opts.cryptoActive then
      match ext.cryptoSet sDoc.session with
      | .ok data => ([], data)
      | .error e => ([.failure e], sDoc.session)
    else ([], sDoc.session)
  let sFinal : SetDoc := { sDoc with session := cryptoStep.2 }
  let found := db.any (fun r => r._id == sFinal._id)
  let db2 :=
    if found then
      db.map (fun r => if r._id == sFinal._id then applySetDoc r sFinal else r)
    else
      db ++ [{ _id := sFinal._id, session := sFinal.session,
               expires := sFinal.expires, lastModified := sFinal.lastModified }]
  let upsertedCount : Nat := if found then 0 else 1
  { db2 := db2,
    completions := cryptoStep.1 ++ [.success],
    events :=
      (if 0 < upsertedCount then [Event.create] else [Event.update])
        ++ [Event.set],
    written := sFinal,
    callerSession := sess1 }

/-- The lastModified timestamp touch reads off the caller payload:
`session.lastModified ? session.lastModified.getTime() : 0`. -/
def touchLastModified (sess : JVal) : Int :=
  if truthyOpt (getField sess "lastModified") then
    jvalToDate ((getField sess "lastModified").getD .null)
  else 0

/-- The updateFields document touch assembles: a truthy cookie expiry is
stored as that instant together with a rewritten serialized payload, else
expires is now plus ttl seconds; uLM is the lastModified entry decided by
the threshold block. -/
def touchUpdateFields (opts : StoreOptions) (serialize : JVal → JVal)
    (now : Int) (sess : JVal) (uLM : Option Int) : UpdateFields :=
  if truthyOpt (cookieExpiresField sess) then
    { lastModified := uLM,
      expires := some (jvalToDate ((cookieExpiresField sess).getD .null)),
      session := some (serialize sess) }
  else
    { lastModified := uLM,
      expires := some (now + opts.ttl * 1000),
      session := none }

/-- The write half of touch: run the non-upsert updateOne with the
assembled updateFields and report not-found when it modified nothing. -/
def touchWrite (opts : StoreOptions) (serialize : JVal → JVal) (key : String)
    (now : Int) (db : List DBRecord) (sess : JVal)
    (uLM : Option Int) : TouchOutcome :=
  let u := touchUpdateFields opts serialize now sess uLM
  let modifiedCount : Nat :=
    match db.find? (fun r => r._id == key) with
    | some r => if touchApply r u == r then 0 else 1
    | none => 0
  if modifiedCount == 0 then
    { db2 := db,
      completions := [.failure "Unable to find the session to touch"],
      events := [], updateFields := some u }
  else
    { db2 := db.map (fun r2 => if r2._id == key then touchApply r2 u else r2),
      completions := [.success], events := [Event.touch],
      updateFields := some u }

/-- MongoStore.touch, source lines 338 to 391.  With a positive threshold and
a truthy payload lastModified, a write younger than the threshold is skipped
with a success callback; otherwise the write proceeds, carrying
`lastModified = now` only when the threshold block ran. -/
def touch (opts : StoreOptions) (serialize : JVal → JVal)
    (transformId : Option (String → String)) (now : Int)
    (db : List DBRecord) (sid : String) (sess : JVal) : TouchOutcome :=
  let touchAfterMs := opts.touchAfter * 1000
  let lastModified := touchLastModified sess
  let key := computeStorageId transformId sid
  if decide (0 < touchAfterMs) && decide (0 < lastModified) then
    if decide (now - lastModified < touchAfterMs) then
      { db2 := db, completions := [.success], events := [],
        updateFields := none }
    else
      touchWrite opts serialize key now db sess (some now)
  else
    touchWrite opts serialize key now db sess none

/-- MongoStore.all, source lines 396 to 433: collect every record passing
the expiry filter, unserialize each payload, emit all. -/
def all (unserialize : JVal → JVal) (now : Int)
    (db : List DBRecord) : AllOutcome :=
  { results := (allSessions now db).map (fun r => unserialize r.session),
    events := [Event.all] }

end MongoStore

/-- Concrete externals for evaluation: identity JSON builtins and an
always-succeeding cipher. -/
def extId : Externals :=
  { jsonStringify := fun v => v, jsonParse := fun v => v,
    cryptoGet := fun v => .ok v, cryptoSet := fun v => .ok v }

/-- Concrete externals whose decryption call fails. -/
def extDecryptFail : Externals :=
  { jsonStringify := fun v => v, jsonParse := fun v => v,
    cryptoGet := fun _ => .error "decryption failed",
    cryptoSet := fun v => .ok v }

/-! ## Helper lemmas -/

theorem lookupField_removeField_self (k : String) (fs : JFields) :
    lookupField k (removeField k fs) = none := by
  match fs with
  | .nil => rfl
  | .cons k2 v rest =>
      by_cases h : k2 = k
      · simp [removeField, h, lookupField_removeField_self k rest]
      · simp [removeField, h, lookupField,
          lookupField_removeField_self k rest]

theorem lookupField_removeField_ne (k k2 : String) (h : k2 ≠ k)
    (fs : JFields) : lookupField k2 (removeField k fs) = lookupField k2 fs := by
  match fs with
  | .nil => rfl
  | .cons k3 v rest =>
      by_cases h3 : k3 = k
      · simp [removeField, h3, lookupField, Ne.symm h,
          lookupField_removeField_ne k k2 h rest]
      · simp [removeField, h3, lookupField,
          lookupField_removeField_ne k k2 h rest]

theorem getField_deleteField_self (v : JVal) (k : String) :
    getField (deleteField v k) k = none := by
  cases v <;> simp [getField, deleteField, lookupField_removeField_self]

theorem getField_deleteField_ne (v : JVal) (k k2 : String) (h : k2 ≠ k) :
    getField (deleteField v k) k2 = getField v k2 := by
  cases v <;> simp [getField, deleteField, lookupField_removeField_ne k k2 h]

theorem cookieExpiresField_deleteField (sess : JVal) :
    cookieExpiresField (deleteField sess "lastModified")
      = cookieExpiresField sess := by
  unfold cookieExpiresField
  rw [getField_deleteField_ne sess "lastModified" "cookie" (by decide)]

theorem cookieExpiresField_strip (opts : StoreOptions) (sess : JVal) :
    cookieExpiresField (MongoStore.stripLastModified opts sess)
      = cookieExpiresField sess := by
  unfold MongoStore.stripLastModified
  split
  · exact cookieExpiresField_deleteField sess
  · rfl

theorem touchWrite_updateFields (opts : StoreOptions) (serialize : JVal → JVal)
    (key : String) (now : Int) (db : List DBRecord) (sess : JVal)
    (uLM : Option Int) :
    (MongoStore.touchWrite opts serialize key now db sess uLM).updateFields
      = some (MongoStore.touchUpdateFields opts serialize now sess uLM) := by
  unfold MongoStore.touchWrite
  split
  · dsimp only
    split <;> rfl
  · rfl

theorem touchUpdateFields_eq (opts : StoreOptions) (serialize : JVal → JVal)
    (now : Int) (sess : JVal) (uLM : Option Int) :
    MongoStore.touchUpdateFields opts serialize now sess uLM
      = { lastModified := uLM,
          expires := MongoStore.setDocExpires opts now sess,
          session := if truthyOpt (cookieExpiresField sess)
                     then some (serialize sess) else none } := by
  unfold MongoStore.touchUpdateFields MongoStore.setDocExpires
  cases h : truthyOpt (cookieExpiresField sess) <;> simp [h]

theorem touchWrite_not_found (opts : StoreOptions) (serialize : JVal → JVal)
    (key : String) (now : Int) (db : List DBRecord) (sess : JVal)
    (uLM : Option Int)
    (hf : db.find? (fun r => r._id == key) = none) :
    (MongoStore.touchWrite opts serialize key now db sess uLM).completions
      = [.failure "Unable to find the session to touch"] := by
  unfold MongoStore.touchWrite
  rw [hf]
  rfl

/-! ## Claims -/

/-- Claim C1: a record whose expires field is present and not strictly
greater than the current time is selected neither by the findOne query of
get nor by the find query of all: both queries keep only records whose
expires is absent or strictly in the future. -/
theorem expired_record_never_returned
    (transformId : Option (String → String)) (now : Int) (db : List DBRecord)
    (sid : String) (r : DBRecord) (e : Int)
    (h1 : r.expires = some e) (h2 : e ≤ now) :
    findSession transformId now db sid ≠ some r ∧ r ∉ allSessions now db := by
  constructor
  · intro hfind
    have hp := List.find?_some hfind
    rw [Bool.and_eq_true] at hp
    have h3 := hp.2
    rw [h1] at h3
    simp only [queryNotExpired, decide_eq_true_eq] at h3
    omega
  · intro hm
    have h3 := List.of_mem_filter hm
    simp only [h1, queryNotExpired, decide_eq_true_eq] at h3
    omega

/-- Witness for expired_record_never_returned: a record expiring exactly now
is invisible to both read queries. -/
theorem expired_record_never_returned_witness :
    findSession none 10
        [{ _id := "a", session := JVal.null, expires := some 10,
           lastModified := none }] "a"
      ≠ some { _id := "a", session := JVal.null, expires := some 10,
               lastModified := none } ∧
    ({ _id := "a", session := JVal.null, expires := some 10,
       lastModified := none } : DBRecord)
      ∉ allSessions 10
        [{ _id := "a", session := JVal.null, expires := some 10,
           lastModified := none }] :=
  expired_record_never_returned none 10 _ "a" _ 10 rfl (by decide)

/-- Claim C2 (code bug): with encryption active and a failing decryption,
get invokes its callback twice on one call, first with the decryption error
and then again with a session value, instead of completing exactly once
with an error and no session value. -/
theorem get_decrypt_failure_double_callback :
    (MongoStore.get { ttl := 1209600, touchAfter := 0, cryptoActive := true }
        extDecryptFail (fun v => v) none 0
        [{ _id := "sid", session := .obj (.cons "user" (.str "u") .nil),
           expires := none, lastModified := none }] "sid").completions
      = [.failure "decryption failed",
         .success (.obj (.cons "user" (.str "u") .nil))] := by decide

/-- Claim C3 (code bug): with touchAfter positive, get on an absent session
id and get on an expired record both complete with an error (a TypeError
from reading lastModified on null) instead of succeeding with a null
result; only with touchAfter zero does get succeed with null. -/
theorem get_absent_session_touchAfter_error :
    (MongoStore.get { ttl := 1209600, touchAfter := 600, cryptoActive := false }
        extId (fun v => v) none 0 [] "sid").completions
      = [.failure "TypeError: Cannot read properties of null"] ∧
    (MongoStore.get { ttl := 1209600, touchAfter := 600, cryptoActive := false }
        extId (fun v => v) none 10
        [{ _id := "sid", session := JVal.null, expires := some 5,
           lastModified := some 1 }] "sid").completions
      = [.failure "TypeError: Cannot read properties of null"] ∧
    (MongoStore.get { ttl := 1209600, touchAfter := 0, cryptoActive := false }
        extId (fun v => v) none 0 [] "sid").completions
      = [.success JVal.null] := by
  refine ⟨by decide, by decide, by decide⟩

/-- Claim C4: when the payload carries no truthy cookie expiry, the document
set writes has expires equal to now plus the configured ttl seconds (ttl
defaults to 1209600); when the cookie carries an explicit expiry instant,
that instant is stored instead. -/
theorem set_expires_ttl_or_cookie (opts : StoreOptions) (ext : Externals)
    (serialize : JVal → JVal) (transformId : Option (String → String))
    (now : Int) (db : List DBRecord) (sid : String) (sess : JVal) (t : Int) :
    (truthyOpt (cookieExpiresField sess) = false →
      (MongoStore.set opts ext serialize transformId now db sid sess).written.expires
        = some (now + opts.ttl * 1000)) ∧
    (cookieExpiresField sess = some (JVal.date t) →
      (MongoStore.set opts ext serialize transformId now db sid sess).written.expires
        = some t) ∧
    ({ } : StoreOptions).ttl = 1209600 := by
  have hw : (MongoStore.set opts ext serialize transformId now db sid sess).written.expires
      = MongoStore.setDocExpires opts now (MongoStore.stripLastModified opts sess) := by
    unfold MongoStore.set
    cases h : opts.cryptoActive <;> simp [h]
  refine ⟨?_, ?_, rfl⟩
  · intro h
    rw [hw]
    unfold MongoStore.setDocExpires
    rw [cookieExpiresField_strip, h]
    simp
  · intro h
    rw [hw]
    unfold MongoStore.setDocExpires
    rw [cookieExpiresField_strip, h]
    simp [truthyOpt, truthy, jvalToDate]

/-- Witness for set_expires_ttl_or_cookie: a payload with a cookie carrying
no expiry gets now plus ttl seconds; a payload whose cookie expires at
instant 777 gets 777. -/
theorem set_expires_ttl_or_cookie_witness :
    (MongoStore.set { ttl := 1209600, touchAfter := 0, cryptoActive := false }
        extId (fun v => v) none 0 [] "sid"
        (.obj (.cons "cookie" (.obj .nil) .nil))).written.expires
      = some (0 + 1209600 * 1000) ∧
    (MongoStore.set { ttl := 1209600, touchAfter := 0, cryptoActive := false }
        extId (fun v => v) none 0 [] "sid"
        (.obj (.cons "cookie"
          (.obj (.cons "expires" (.date 777) .nil)) .nil))).written.expires
      = some 777 :=
  ⟨(set_expires_ttl_or_cookie { ttl := 1209600, touchAfter := 0, cryptoActive := false }
      extId (fun v => v) none 0 [] "sid"
      (.obj (.cons "cookie" (.obj .nil) .nil)) 0).1 (by decide),
   (set_expires_ttl_or_cookie { ttl := 1209600, touchAfter := 0, cryptoActive := false }
      extId (fun v => v) none 0 [] "sid"
      (.obj (.cons "cookie"
        (.obj (.cons "expires" (.date 777) .nil)) .nil)) 777).2.1 (by decide)⟩

/-- Claim C5 counterexample: touchAfter is 10 and the payload carries no
lastModified, so the elapsed time the claim prescribes (now minus 0) is far
above the threshold; the write is performed, yet the update document omits
lastModified and the stored record keeps none rather than now. -/
theorem touch_missing_lastModified_counterexample :
    (MongoStore.touch { ttl := 60, touchAfter := 10, cryptoActive := false }
        (fun v => v) none 100000000
        [{ _id := "abc", session := .str "x", expires := some 5,
           lastModified := none }] "abc"
        (.obj (.cons "cookie" (.obj .nil) .nil))).db2
      = [{ _id := "abc", session := .str "x", expires := some 100060000,
           lastModified := none }] ∧
    (MongoStore.touch { ttl := 60, touchAfter := 10, cryptoActive := false }
        (fun v => v) none 100000000
        [{ _id := "abc", session := .str "x", expires := some 5,
           lastModified := none }] "abc"
        (.obj (.cons "cookie" (.obj .nil) .nil))).updateFields
      = some { lastModified := none, expires := some 100060000,
               session := none } ∧
    (MongoStore.touch { ttl := 60, touchAfter := 10, cryptoActive := false }
        (fun v => v) none 100000000
        [{ _id := "abc", session := .str "x", expires := some 5,
           lastModified := none }] "abc"
        (.obj (.cons "cookie" (.obj .nil) .nil))).completions
      = [.success] := by
  refine ⟨by decide, by decide, by decide⟩

/-- Claim C5 as amended: with touchAfter positive, when the payload carries
a positive lastModified the call skips the write and succeeds below the
threshold, and above it writes lastModified equal to now with expires
recomputed as in set; when lastModified is absent (read as 0) the threshold
block is bypassed entirely, so the write always proceeds and does not
update lastModified. -/
theorem touch_threshold_behavior (opts : StoreOptions) (serialize : JVal → JVal)
    (transformId : Option (String → String)) (now : Int) (db : List DBRecord)
    (sid : String) (sess : JVal) (hN : 0 < opts.touchAfter) :
    (0 < MongoStore.touchLastModified sess →
      now - MongoStore.touchLastModified sess < opts.touchAfter * 1000 →
      MongoStore.touch opts serialize transformId now db sid sess
        = { db2 := db, completions := [.success], events := [],
            updateFields := none }) ∧
    (0 < MongoStore.touchLastModified sess →
      opts.touchAfter * 1000 ≤ now - MongoStore.touchLastModified sess →
      (MongoStore.touch opts serialize transformId now db sid sess).updateFields
        = some { lastModified := some now,
                 expires := MongoStore.setDocExpires opts now sess,
                 session := if truthyOpt (cookieExpiresField sess)
                            then some (serialize sess) else none }) ∧
    (MongoStore.touchLastModified sess = 0 →
      (MongoStore.touch opts serialize transformId now db sid sess).updateFields
        = some { lastModified := none,
                 expires := MongoStore.setDocExpires opts now sess,
                 session := if truthyOpt (cookieExpiresField sess)
                            then some (serialize sess) else none }) := by
  have hms : (0:Int) < opts.touchAfter * 1000 := by omega
  refine ⟨?_, ?_, ?_⟩
  · intro h1 h2
    simp [MongoStore.touch, hms, h1, h2]
  · intro h1 h2
    have h4 : ¬ (now - MongoStore.touchLastModified sess < opts.touchAfter * 1000) := by
      omega
    simp [MongoStore.touch, hms, h1, h4]
    rw [touchWrite_updateFields, touchUpdateFields_eq]
  · intro h1
    have h2 : ¬ (0 < MongoStore.touchLastModified sess) := by omega
    simp [MongoStore.touch, h2]
    rw [touchWrite_updateFields, touchUpdateFields_eq]

/-- Witness for touch_threshold_behavior: a skip below the threshold, a
write with refreshed lastModified above it for a payload without a cookie
expiry, the same for a payload with an explicit cookie expiry (stored
instant and rewritten payload), and a bypassed threshold block when
lastModified is absent. -/
theorem touch_threshold_behavior_witness :
    MongoStore.touch { ttl := 60, touchAfter := 30, cryptoActive := false }
        (fun v => v) none 2000 []
        "s" (.obj (.cons "lastModified" (.date 1000) .nil))
      = { db2 := [], completions := [.success], events := [],
          updateFields := none } ∧
    (MongoStore.touch { ttl := 60, touchAfter := 30, cryptoActive := false }
        (fun v => v) none 50000 []
        "s" (.obj (.cons "lastModified" (.date 1000) .nil))).updateFields
      = some { lastModified := some 50000,
               expires := MongoStore.setDocExpires
                 { ttl := 60, touchAfter := 30, cryptoActive := false } 50000
                 (.obj (.cons "lastModified" (.date 1000) .nil)),
               session := if truthyOpt (cookieExpiresField
                   (.obj (.cons "lastModified" (.date 1000) .nil)))
                 then some ((fun v => v)
                   (.obj (.cons "lastModified" (.date 1000) .nil)))
                 else none } ∧
    (MongoStore.touch { ttl := 60, touchAfter := 30, cryptoActive := false }
        (fun v => v) none 50000 []
        "s" (.obj (.cons "cookie" (.obj (.cons "expires" (.date 99) .nil))
          (.cons "lastModified" (.date 1000) .nil)))).updateFields
      = some { lastModified := some 50000,
               expires := MongoStore.setDocExpires
                 { ttl := 60, touchAfter := 30, cryptoActive := false } 50000
                 (.obj (.cons "cookie" (.obj (.cons "expires" (.date 99) .nil))
                   (.cons "lastModified" (.date 1000) .nil))),
               session := if truthyOpt (cookieExpiresField
                   (.obj (.cons "cookie" (.obj (.cons "expires" (.date 99) .nil))
                     (.cons "lastModified" (.date 1000) .nil))))
                 then some ((fun v => v)
                   (.obj (.cons "cookie" (.obj (.cons "expires" (.date 99) .nil))
                     (.cons "lastModified" (.date 1000) .nil))))
                 else none } ∧
    (MongoStore.touch { ttl := 60, touchAfter := 30, cryptoActive := false }
        (fun v => v) none 2000 [] "s" (.obj .nil)).updateFields
      = some { lastModified := none,
               expires := MongoStore.setDocExpires
                 { ttl := 60, touchAfter := 30, cryptoActive := false } 2000
                 (.obj .nil),
               session := if truthyOpt (cookieExpiresField (.obj .nil))
                 then some ((fun v => v) (.obj .nil)) else none } :=
  ⟨(touch_threshold_behavior { ttl := 60, touchAfter := 30, cryptoActive := false }
      (fun v => v) none 2000 [] "s"
      (.obj (.cons "lastModified" (.date 1000) .nil)) (by decide)).1
        (by decide) (by decide),
   (touch_threshold_behavior { ttl := 60, touchAfter := 30, cryptoActive := false }
      (fun v => v) none 50000 [] "s"
      (.obj (.cons "lastModified" (.date 1000) .nil)) (by decide)).2.1
        (by decide) (by decide),
   (touch_threshold_behavior { ttl := 60, touchAfter := 30, cryptoActive := false }
      (fun v => v) none 50000 [] "s"
      (.obj (.cons "cookie" (.obj (.cons "expires" (.date 99) .nil))
        (.cons "lastModified" (.date 1000) .nil))) (by decide)).2.1
        (by decide) (by decide),
   (touch_threshold_behavior { ttl := 60, touchAfter := 30, cryptoActive := false }
      (fun v => v) none 2000 [] "s" (.obj .nil) (by decide)).2.2
        (by decide)⟩

/-- Claim C6: when touch reaches the backing update (the threshold skip did
not fire) and no record matches the storage id, the callback receives the
explicit not-found error; the threshold skip itself reports success. -/
theorem touch_not_found_vs_skip (opts : StoreOptions) (serialize : JVal → JVal)
    (transformId : Option (String → String)) (now : Int) (db : List DBRecord)
    (sid : String) (sess : JVal) :
    ((0 < opts.touchAfter * 1000 ∧ 0 < MongoStore.touchLastModified sess ∧
        now - MongoStore.touchLastModified sess < opts.touchAfter * 1000) →
      MongoStore.touch opts serialize transformId now db sid sess
        = { db2 := db, completions := [.success], events := [],
            updateFields := none }) ∧
    (¬ (0 < opts.touchAfter * 1000 ∧ 0 < MongoStore.touchLastModified sess ∧
        now - MongoStore.touchLastModified sess < opts.touchAfter * 1000) →
      db.find? (fun r => r._id == computeStorageId transformId sid) = none →
      (MongoStore.touch opts serialize transformId now db sid sess).completions
        = [.failure "Unable to find the session to touch"]) := by
  constructor
  · intro h
    obtain ⟨hA, hB, hC⟩ := h
    simp [MongoStore.touch, hA, hB, hC]
  · intro hn hf
    by_cases hA : 0 < opts.touchAfter * 1000
    · by_cases hB : 0 < MongoStore.touchLastModified sess
      · have hC : ¬ (now - MongoStore.touchLastModified sess
            < opts.touchAfter * 1000) := fun hc => hn ⟨hA, hB, hc⟩
        simp [MongoStore.touch, hA, hB, hC]
        rw [touchWrite_not_found _ _ _ _ _ _ _ hf]
      · simp [MongoStore.touch, hB]
        rw [touchWrite_not_found _ _ _ _ _ _ _ hf]
    · simp [MongoStore.touch, hA]
      rw [touchWrite_not_found _ _ _ _ _ _ _ hf]

/-- Witness for touch_not_found_vs_skip: the skip case succeeds and the
not-found case fails with the explicit error. -/
theorem touch_not_found_vs_skip_witness :
    MongoStore.touch { ttl := 60, touchAfter := 30, cryptoActive := false }
        (fun v => v) none 2000 []
        "s" (.obj (.cons "lastModified" (.date 1000) .nil))
      = { db2 := [], completions := [.success], events := [],
          updateFields := none } ∧
    (MongoStore.touch { ttl := 60, touchAfter := 30, cryptoActive := false }
        (fun v => v) none 2000 [] "s" (.obj .nil)).completions
      = [.failure "Unable to find the session to touch"] :=
  ⟨(touch_not_found_vs_skip { ttl := 60, touchAfter := 30, cryptoActive := false }
      (fun v => v) none 2000 [] "s"
      (.obj (.cons "lastModified" (.date 1000) .nil))).1 (by decide),
   (touch_not_found_vs_skip { ttl := 60, touchAfter := 30, cryptoActive := false }
      (fun v => v) none 2000 [] "s" (.obj .nil)).2 (by decide) rfl⟩

/-- Claim C7: every completed set emits exactly one of create and update,
create exactly when the upsert inserted a new record, and emits set right
after it. -/
theorem set_emits_create_or_update_then_set (opts : StoreOptions)
    (ext : Externals) (serialize : JVal → JVal)
    (transformId : Option (String → String)) (now : Int) (db : List DBRecord)
    (sid : String) (sess : JVal) :
    (MongoStore.set opts ext serialize transformId now db sid sess).events
      = if db.any (fun r => r._id == computeStorageId transformId sid)
        then [Event.update, Event.set]
        else [Event.create, Event.set] := by
  cases h : db.any (fun r => r._id == computeStorageId transformId sid) <;>
    cases hc : opts.cryptoActive <;>
      simp [MongoStore.set, h, hc]

/-- Claim C8 counterexample: with only unserialize supplied, the selected
serialize is defaultSerializeFunction, which normalizes the cookie property
through its toJSON method and is therefore not the identity function. -/
theorem only_unserialize_serialize_not_identity :
    ¬ ((computeTransformFunctions
          { serialize := none, unserialize := some (fun v => v),
            stringify := true }
          (fun v => v) (fun v => v)).1
        (.obj (.cons "cookie" (.obj (.cons "toJSON" (.str "plain") .nil)) .nil))
      = .obj (.cons "cookie"
          (.obj (.cons "toJSON" (.str "plain") .nil)) .nil)) := by decide

/-- Claim C8 as amended: when only serialize is supplied, it is used and
unserialize defaults to the identity transform unit; when only unserialize
is supplied, it is used and serialize defaults to defaultSerializeFunction,
the cookie-normalizing structural copy, not the identity. -/
theorem computeTransformFunctions_single_override
    (f g jsonStringify jsonParse : JVal → JVal) (st : Bool) :
    computeTransformFunctions
        { serialize := some f, unserialize := none, stringify := st }
        jsonStringify jsonParse = (f, unit) ∧
    computeTransformFunctions
        { serialize := none, unserialize := some g, stringify := st }
        jsonStringify jsonParse = (defaultSerializeFunction, g) :=
  ⟨rfl, rfl⟩

/-- Claim C9 counterexample: with touchAfter zero and an identity custom
serializer, the document set writes keeps the caller-supplied lastModified
field inside the serialized payload. -/
theorem set_without_touch_keeps_lastModified :
    getField ((MongoStore.set
        { ttl := 1209600, touchAfter := 0, cryptoActive := false }
        extId (fun v => v) none 0 [] "sid"
        (.obj (.cons "user" (.str "u")
          (.cons "lastModified" (.date 5) .nil)))).written.session)
      "lastModified" = some (.date 5) := by decide

/-- Claim C9 as amended: only when touchAfter is positive does set remove
the lastModified field from the caller payload before serializing; the
serializer then receives a payload without lastModified, and with
encryption off that value is exactly what is stored. -/
theorem set_strips_lastModified_when_touch_enabled (opts : StoreOptions)
    (ext : Externals) (serialize : JVal → JVal)
    (transformId : Option (String → String)) (now : Int) (db : List DBRecord)
    (sid : String) (sess : JVal) (t : Int)
    (h1 : 0 < opts.touchAfter)
    (h2 : getField sess "lastModified" = some (JVal.date t)) :
    getField ((MongoStore.set opts ext serialize transformId now db sid
        sess).callerSession) "lastModified" = none ∧
    (opts.cryptoActive = false →
      (MongoStore.set opts ext serialize transformId now db sid sess).written.session
        = serialize ((MongoStore.set opts ext serialize transformId now db sid
            sess).callerSession)) := by
  have hcs : (MongoStore.set opts ext serialize transformId now db sid
      sess).callerSession = MongoStore.stripLastModified opts sess := by
    unfold MongoStore.set
    cases h : opts.cryptoActive <;> simp [h]
  have hdel : MongoStore.stripLastModified opts sess
      = deleteField sess "lastModified" := by
    unfold MongoStore.stripLastModified
    rw [h2]
    simp [h1, truthyOpt, truthy]
  constructor
  · rw [hcs, hdel]
    exact getField_deleteField_self sess "lastModified"
  · intro hcrypto
    rw [hcs]
    unfold MongoStore.set
    simp [hcrypto]

/-- Witness for set_strips_lastModified_when_touch_enabled at a concrete
payload. -/
theorem set_strips_lastModified_witness :
    getField ((MongoStore.set
        { ttl := 60, touchAfter := 30, cryptoActive := false }
        extId (fun v => v) none 7 [] "s"
        (.obj (.cons "user" (.str "u")
          (.cons "lastModified" (.date 5) .nil)))).callerSession)
      "lastModified" = none ∧
    (MongoStore.set { ttl := 60, touchAfter := 30, cryptoActive := false }
        extId (fun v => v) none 7 [] "s"
        (.obj (.cons "user" (.str "u")
          (.cons "lastModified" (.date 5) .nil)))).written.session
      = (fun v => v) ((MongoStore.set
          { ttl := 60, touchAfter := 30, cryptoActive := false }
          extId (fun v => v) none 7 [] "s"
          (.obj (.cons "user" (.str "u")
            (.cons "lastModified" (.date 5) .nil)))).callerSession) :=
  ⟨(set_strips_lastModified_when_touch_enabled
      { ttl := 60, touchAfter := 30, cryptoActive := false }
      extId (fun v => v) none 7 [] "s"
      (.obj (.cons "user" (.str "u") (.cons "lastModified" (.date 5) .nil)))
      5 (by decide) (by decide)).1,
   (set_strips_lastModified_when_touch_enabled
      { ttl := 60, touchAfter := 30, cryptoActive := false }
      extId (fun v => v) none 7 [] "s"
      (.obj (.cons "user" (.str "u") (.cons "lastModified" (.date 5) .nil)))
      5 (by decide) (by decide)).2 rfl⟩

/-- Claim C10: with touchAfter positive and a payload carrying lastModified,
set deletes that field from the caller-owned payload object in place: after
the call the object has no lastModified and every other property is
unchanged. -/
theorem set_mutates_caller_payload (opts : StoreOptions) (ext : Externals)
    (serialize : JVal → JVal) (transformId : Option (String → String))
    (now : Int) (db : List DBRecord) (sid : String) (sess : JVal) (t : Int)
    (h1 : 0 < opts.touchAfter)
    (h2 : getField sess "lastModified" = some (JVal.date t)) :
    getField ((MongoStore.set opts ext serialize transformId now db sid
        sess).callerSession) "lastModified" = none ∧
    ∀ k : String, k ≠ "lastModified" →
      getField ((MongoStore.set opts ext serialize transformId now db sid
          sess).callerSession) k = getField sess k := by
  have hcs : (MongoStore.set opts ext serialize transformId now db sid
      sess).callerSession = MongoStore.stripLastModified opts sess := by
    unfold MongoStore.set
    cases h : opts.cryptoActive <;> simp [h]
  have hdel : MongoStore.stripLastModified opts sess
      = deleteField sess "lastModified" := by
    unfold MongoStore.stripLastModified
    rw [h2]
    simp [h1, truthyOpt, truthy]
  constructor
  · rw [hcs, hdel]
    exact getField_deleteField_self sess "lastModified"
  · intro k hk
    rw [hcs, hdel]
    exact getField_deleteField_ne sess "lastModified" k hk

/-- Witness for set_mutates_caller_payload: after the call the payload has
no lastModified and its user property reads as before. -/
theorem set_mutates_caller_payload_witness :
    getField ((MongoStore.set
        { ttl := 60, touchAfter := 30, cryptoActive := false }
        extId (fun v => v) none 7 [] "s"
        (.obj (.cons "user" (.str "u")
          (.cons "lastModified" (.date 5) .nil)))).callerSession)
      "lastModified" = none ∧
    getField ((MongoStore.set
        { ttl := 60, touchAfter := 30, cryptoActive := false }
        extId (fun v => v) none 7 [] "s"
        (.obj (.cons "user" (.str "u")
          (.cons "lastModified" (.date 5) .nil)))).callerSession)
      "user"
      = getField (.obj (.cons "user" (.str "u")
          (.cons "lastModified" (.date 5) .nil))) "user" :=
  ⟨(set_mutates_caller_payload
      { ttl := 60, touchAfter := 30, cryptoActive := false }
      extId (fun v => v) none 7 [] "s"
      (.obj (.cons "user" (.str "u") (.cons "lastModified" (.date 5) .nil)))
      5 (by decide) (by decide)).1,
   (set_mutates_caller_payload
      { ttl := 60, touchAfter := 30, cryptoActive := false }
      extId (fun v => v) none 7 [] "s"
      (.obj (.cons "user" (.str "u") (.cons "lastModified" (.date 5) .nil)))
      5 (by decide) (by decide)).2 "user" (by decide)⟩

end ConnectMongo
